import Mathlib

/-!
Shallow embedding of `src/index.js` (a Discord announcement/reminder bot).

Times are modeled as `Int` milliseconds since the Unix epoch (JS `Date`
arithmetic on `getTime()` values; JS UTC time has no leap seconds, so
truncation to a UTC day boundary is plain modular arithmetic).

The Messaging Gateway (`channel.send`, `client.channels.fetch`) is external;
sends are modeled by a success oracle `sendOk : Nat → Bool` indexed by the
number of messages successfully sent so far in the cycle (a `false` models a
thrown delivery error, which in the source propagates out of `runCheck`'s
`try` block and aborts the remainder of the poll cycle).
-/

namespace LittleQueen

/-! ## Time helpers (`addHours`, `isoDateUTC`, `formatUTC` from the source) -/

def MS_PER_HOUR : Int := 3600000

def MS_PER_DAY : Int := 86400000

/-- `addHours(date, h)` : `new Date(date.getTime() + h * 3600000)`. -/
def addHours (ms : Int) (h : Int) : Int := ms + h * 3600000

/-- JS `String(n).padStart(2, "0")`. -/
def pad2 (n : Int) : String :=
  let s := toString n
  if s.length < 2 then "0" ++ s else s

/-- Proleptic-Gregorian civil date from days since 1970-01-01 (what the JS
`Date` getters `getUTCFullYear/Month/Date` compute). -/
def civilFromDays (z0 : Int) : Int × Int × Int :=
  let z := z0 + 719468
  let era := (if 0 ≤ z then z else z - 146096) / 146097
  let doe := z - era * 146097
  let yoe := (doe - doe / 1460 + doe / 36524 - doe / 146096) / 365
  let y := yoe + era * 400
  let doy := doe - (365 * yoe + yoe / 4 - yoe / 100)
  let mp := (5 * doy + 2) / 153
  let d := doy - (153 * mp + 2) / 5 + 1
  let m := mp + (if mp < 10 then 3 else -9)
  (y + (if m ≤ 2 then 1 else 0), m, d)

/-- Start of the UTC day containing `ms`: what
`Date.UTC(d.getUTCFullYear(), d.getUTCMonth(), d.getUTCDate(), 0, 0, 0)`
evaluates to. -/
def dayFloor (ms : Int) : Int := ms - ms % MS_PER_DAY

/-- `isoDateUTC(d)` : `"yyyy-mm-dd"` of the UTC date of `d`. -/
def isoDateUTC (ms : Int) : String :=
  let c := civilFromDays ((ms - ms % MS_PER_DAY) / MS_PER_DAY)
  toString c.1 ++ "-" ++ pad2 c.2.1 ++ "-" ++ pad2 c.2.2

/-- `formatUTC(d)` : `"yyyy-mm-dd hh:mi UTC"`. -/
def formatUTC (ms : Int) : String :=
  let c := civilFromDays ((ms - ms % MS_PER_DAY) / MS_PER_DAY)
  let hh := (ms % MS_PER_DAY) / MS_PER_HOUR
  let mi := (ms % MS_PER_HOUR) / 60000
  toString c.1 ++ "-" ++ pad2 c.2.1 ++ "-" ++ pad2 c.2.2 ++ " " ++
    pad2 hh ++ ":" ++ pad2 mi ++ " UTC"

/-! ## Configuration and message formatter -/

/-- The parts of `state.config` the Message Formatter reads. -/
structure Config where
  aooTeamRoleId : Option String
  mgeChannelId : Option String
  mgeRoleId : Option String
  deriving DecidableEq

/-- `getAooRoleMention()`. -/
def getAooRoleMention (cfg : Config) : String :=
  match cfg.aooTeamRoleId with
  | some r => "<@&" ++ r ++ ">"
  | none => ""

/-- `getMgeChannelMention()`. -/
def getMgeChannelMention (cfg : Config) : String :=
  match cfg.mgeChannelId with
  | some c => "<#" ++ c ++ ">"
  | none => "**[MGE channel not set]**"

/-- `getMgeRoleMention()`. -/
def getMgeRoleMention (cfg : Config) : String :=
  match cfg.mgeRoleId with
  | some r => "<@&" ++ r ++ ">"
  | none => "**[MGE role not set]**"

/-- `aooOpenMsg()` (JS truthiness of `role`: the empty string is falsy). -/
def aooOpenMsg (cfg : Config) : String :=
  let role := getAooRoleMention cfg
  if role = "" then
    "AOO registration is opened. Reach out to the AOO team for registration!"
  else
    "AOO registration is opened, reach out to " ++ role ++ " for registration!"

def aooWarnMsg : String :=
  "AOO registration will close soon, be sure you are registered!"

def aooClosedMsg : String := "AOO registration closed"

def mgeOpenMsg (cfg : Config) : String :=
  "MGE registration is open, register in " ++ getMgeChannelMention cfg ++
    " channel, or reach out to " ++ getMgeRoleMention cfg ++ " !"

def mgeWarnMsg : String :=
  "MGE registration closes in 24 hours, don’t forget to apply!"

def mgeClosedMsg : String := "MGE registration is closed"

/-! ## Calendar events and milestone keys -/

/-- A calendar event as consumed by `runCheck`.  `uid` is the already-resolved
`ev?.uid || ev?.id || "no_uid"`; `day` is `isoDateUTC(new Date(ev.start))`
(carried as data so `makeKey` matches the source exactly); `tag` is the result
of `getEventType` (the `Type: ...` free-text extraction), `none` when no tag
was recognized. -/
structure CalEvent where
  uid : String
  day : String
  startMs : Int
  endMs : Int
  tag : Option String
  deriving DecidableEq

/-- `makeKey(prefix, ev, suffix)`. -/
def makeKey (pre : String) (ev : CalEvent) (suffix : String) : String :=
  pre ++ "_" ++ ev.uid ++ "_" ++ ev.day ++ "_" ++ suffix

/-! ## The milestone engine (`runCheck`)

The body of `runCheck`'s event loop is a fixed sequence of guarded blocks
(three per recognized event type, in source order).  We flatten that sequence
into a list of `Mile` records — flag key, message text, and the boolean
trigger condition already evaluated at the cycle's `now` — and fold a step
function over it.  The step function mirrors one guarded block:
`if (!state[key] && cond) { await channel.send(msg); state[key] = true; }`,
where a failed send throws, freezing the rest of the cycle (`ok := false`). -/

/-- One message actually sent: its flag key and its text. -/
structure Sent where
  key : String
  msg : String
  deriving DecidableEq

/-- One guarded milestone block of the cycle. -/
structure Mile where
  key : String
  msg : String
  cond : Bool
  deriving DecidableEq

def Mile.toSent (m : Mile) : Sent := ⟨m.key, m.msg⟩

/-- The cycle state: the set of set milestone flags (top-level `state[key]`
booleans), the messages sent so far this cycle (in order), and whether the
cycle is still running (`ok = false` once a send has thrown). -/
structure Cycle where
  flags : List String
  sent : List Sent
  ok : Bool
  deriving DecidableEq

/-- One guarded milestone block. -/
def stepM (sendOk : Nat → Bool) (c : Cycle) (m : Mile) : Cycle :=
  if c.ok = true ∧ m.key ∉ c.flags ∧ m.cond = true then
    if sendOk c.sent.length then
      { flags := m.key :: c.flags, sent := c.sent ++ [m.toSent], ok := true }
    else
      { c with ok := false }
  else c

/-- The three `ark_registration` milestone blocks, in source order. -/
def arkMiles (cfg : Config) (ping : String) (now : Int) (ev : CalEvent) :
    List Mile :=
  let warnTime := addHours ev.endMs (-6)
  [ ⟨makeKey "AOO_REG" ev "open_at_start", ping ++ "\n" ++ aooOpenMsg cfg,
      decide (ev.startMs ≤ now)⟩,
    ⟨makeKey "AOO_REG" ev "6h_before_end", ping ++ "\n" ++ aooWarnMsg,
      decide (warnTime ≤ now ∧ now < ev.endMs)⟩,
    ⟨makeKey "AOO_REG" ev "closed_at_end", ping ++ "\n" ++ aooClosedMsg,
      decide (ev.endMs ≤ now)⟩ ]

/-- The three `mge` milestone blocks, in source order. -/
def mgeMiles (cfg : Config) (ping : String) (now : Int) (ev : CalEvent) :
    List Mile :=
  let openTime := addHours ev.endMs 24
  let warnTime := addHours ev.startMs (-48)
  let closeTime := addHours ev.startMs (-24)
  [ ⟨makeKey "MGE" ev "open_24h_after_end", ping ++ "\n" ++ mgeOpenMsg cfg,
      decide (openTime ≤ now)⟩,
    ⟨makeKey "MGE" ev "48h_before_start_warn_close_24h",
      ping ++ "\n" ++ mgeWarnMsg, decide (warnTime ≤ now ∧ now < closeTime)⟩,
    ⟨makeKey "MGE" ev "closed_24h_before_start", ping ++ "\n" ++ mgeClosedMsg,
      decide (closeTime ≤ now ∧ now < ev.startMs)⟩ ]

/-- Per-event milestone blocks: the two independent `if (type === ...)`
blocks of the source; an unrecognized or absent tag contributes nothing. -/
def eventMiles (cfg : Config) (ping : String) (now : Int) (ev : CalEvent) :
    List Mile :=
  match ev.tag with
  | some t =>
      (if t = "ark_registration" then arkMiles cfg ping now ev else []) ++
      (if t = "mge" then mgeMiles cfg ping now ev else [])
  | none => []

/-- All milestone blocks of one poll cycle, in the order the source's
`for (const ev of events)` loop reaches them. -/
def cycleMiles (cfg : Config) (ping : String) (now : Int)
    (events : List CalEvent) : List Mile :=
  (events.map (eventMiles cfg ping now)).flatten

/-- One `runCheck` poll cycle (after the reentrancy guard and channel
resolution): processes every milestone block in order, starting from the
persisted flag set `init`. -/
def runCheck (cfg : Config) (ping : String) (sendOk : Nat → Bool) (now : Int)
    (events : List CalEvent) (init : List String) : Cycle :=
  (cycleMiles cfg ping now events).foldl (stepM sendOk) ⟨init, [], true⟩

/-- The all-sends-succeed oracle. -/
def allOk : Nat → Bool := fun _ => true

/-! ## Pure characterization of a cycle

`fire` computes the messages a cycle sends when every send succeeds;
`fireO` does the same under a send oracle, returning `false` when a send
threw.  Both are related to the `stepM` fold below. -/

def keysRev (l : List Sent) : List String := (l.map Sent.key).reverse

def fire : List Mile → List String → List Sent
  | [], _ => []
  | m :: l, fl =>
      if m.key ∉ fl ∧ m.cond = true then m.toSent :: fire l (m.key :: fl)
      else fire l fl

def fireO (sendOk : Nat → Bool) : List Mile → List String → Nat →
    List Sent × Bool
  | [], _, _ => ([], true)
  | m :: l, fl, n =>
      if m.key ∉ fl ∧ m.cond = true then
        if sendOk n then
          (m.toSent :: (fireO sendOk l (m.key :: fl) (n + 1)).1,
           (fireO sendOk l (m.key :: fl) (n + 1)).2)
        else ([], false)
      else fireO sendOk l fl n

/-! ## Scheduled reminders (the Reminder Queue) -/

/-- One persisted `state.scheduled` entry.  `id` is
`` `${channelId}_${runAtMs}_${rand}` `` with a random suffix (carried as data
here; no claim depends on it). -/
structure Job where
  id : String
  channelId : String
  runAtMs : Int
  message : String
  sent : Bool
  groupKey : Option String
  deriving DecidableEq

/-- `schedulePing({...})`: appends the new job and persists. -/
def schedulePing (job : Job) (sch : List Job) : List Job := sch ++ [job]

/-- `removeScheduledByGroupKey(groupKey)`: returns the new `state.scheduled`,
the removed count, and whether `saveState()` was called.  An empty `groupKey`
is JS-falsy (`if (!groupKey) return 0`). -/
def removeScheduledByGroupKey (gk : String) (sch : List Job) :
    List Job × Nat × Bool :=
  if gk = "" then (sch, 0, false)
  else
    let kept := sch.filter fun x => x.sent || decide (x.groupKey ≠ some gk)
    let removed := sch.length - kept.length
    (kept, removed, removed ≠ 0)

/-- The result of resolving a channel id: `none` models both a fetch that
throws and a null channel. -/
structure ChannelInfo where
  isTextBased : Bool
  deriving DecidableEq

/-- One loop body of `processScheduled`: a due unsent item is marked
`sent = true` (regardless of the delivery attempt's outcome — the `try`
block catches everything). -/
def markDue (nowMs : Int) (item : Job) : Job :=
  if item.sent = false ∧ item.runAtMs ≤ nowMs then { item with sent := true }
  else item

/-- Observable outcome of one `processScheduled` sweep: the new persisted
queue, the jobs whose delivery `try` block ran (`attempts`), the jobs for
which `ch.send` was actually reached (`sends`: channel resolved and
text-based), and whether `saveState()` was called. -/
structure SweepResult where
  kept : List Job
  attempts : List Job
  sends : List Job
  saved : Bool
  deriving DecidableEq

/-- `processScheduled(client)`: for each unsent item with `runAtMs ≤ now`,
attempt delivery (failures logged and swallowed) and mark it sent; then drop
every `sent` item and persist once if anything changed. -/
def processScheduled (fetch : String → Option ChannelInfo) (nowMs : Int)
    (sch : List Job) : SweepResult :=
  let processed := sch.map (markDue nowMs)
  let changedBySend := sch.any fun x => !x.sent && decide (x.runAtMs ≤ nowMs)
  let kept := processed.filter fun x => !x.sent
  { kept := kept
    attempts := sch.filter fun x => !x.sent && decide (x.runAtMs ≤ nowMs)
    sends := sch.filter fun x =>
      !x.sent && decide (x.runAtMs ≤ nowMs) &&
        (match fetch x.channelId with
         | some ch => ch.isTextBased
         | none => false)
    saved := changedBySend || decide (kept.length ≠ processed.length) }

/-! ## The `!aoo` selection flow -/

def AOO_TYPES : List String := ["ark_battle", "aoo"]

/-- `AOO_TYPES.has(getEventType(ev))`; `Set.has(null)` is `false`. -/
def isAooType (ev : CalEvent) : Bool :=
  match ev.tag with
  | some t => AOO_TYPES.contains t
  | none => false

structure AooRun where
  uid : String
  startMs : Int
  endMs : Int
  deriving DecidableEq

def toAooRun (ev : CalEvent) : AooRun := ⟨ev.uid, ev.startMs, ev.endMs⟩

/-- Head of the stable sort by `start`: the first element attaining the
minimal `startMs`. -/
def pickFirstMin : List AooRun → Option AooRun
  | [] => none
  | x :: xs =>
      match pickFirstMin xs with
      | none => some x
      | some b => if x.startMs ≤ b.startMs then some x else some b

/-- `getNextAooRunEvent()`: among events of an AOO type whose end is still in
the future, the one with the earliest start (`sort` then `[0]`). -/
def getNextAooRunEvent (now : Int) (events : List CalEvent) : Option AooRun :=
  pickFirstMin
    (((events.filter isAooType).map toAooRun).filter fun x =>
      decide (now < x.endMs))

/-- `listUtcDatesInRange(start, end)`: day starts `d` from the UTC-midnight
truncation of `start`, stepping one day while `d < endDay`. -/
def listUtcDatesInRange (startMs endMs : Int) : List Int :=
  let d0 := dayFloor startMs
  let d1 := dayFloor endMs
  (List.range ((d1 - d0) / MS_PER_DAY).toNat).map fun i : Nat =>
    d0 + MS_PER_DAY * (i : Int)

/-- `buildDateSelect`: the select menu's correlation token (`customId`) and
its `(label, value)` options, `dates.slice(0, 25)`. -/
def buildDateSelect (startMs endMs : Int) (dates : List Int) :
    String × List (String × String) :=
  ("aoo_date|" ++ toString startMs ++ "|" ++ toString endMs,
   (dates.take 25).map fun d => (isoDateUTC d, isoDateUTC d))

/-- `buildHourSelect`: whole hours `h` of the chosen UTC day whose instant
lies in `[startMs, endMs)`; the sentinel option when none qualifies.
`dayMs` is `Date.UTC(yyyy, mm - 1, dd)` for the token's `dateISO`. -/
def buildHourSelect (startMs endMs dayMs : Int) : List (String × String) :=
  let options := (List.range 24).filterMap fun h =>
    let t := dayMs + (h : Int) * 3600000
    if startMs ≤ t ∧ t < endMs then
      some (pad2 (h : Int) ++ ":00 UTC", toString (h : Int))
    else none
  if options.isEmpty then [("No valid hours", "none")] else options

/-- The `aoo_hour` correlation context, as decoded from the token and the
interaction.  `Number(...)` / `Date.UTC(...)` of malformed text yield `NaN`;
since every JS comparison with `NaN` is false (sending the handler into its
rejection branch), `NaN` is modeled as `none`. -/
structure HourCtx where
  startMs : Option Int
  endMs : Option Int
  dayMs : Option Int
  hourSel : Option String
  hourNum : Option Int
  guildId : String
  channelId : String
  userId : String
  deriving DecidableEq

/-- The group key `` `aoo:${guildId}:${channelId}:${user.id}` ``. -/
def aooGroupKey (g ch u : String) : String :=
  "aoo:" ++ g ++ ":" ++ ch ++ ":" ++ u

/-- The user-visible outcome of the `aoo_hour` handler.  `accepted` carries
the scheduled count it reports and the reply content. -/
inductive HourReply where
  | noHour
  | outsideWindow
  | accepted (count : Nat) (content : String)
  deriving DecidableEq

/-- The `aoo_hour` branch of the `interactionCreate` handler: validates the
selection against the token's window, overwrites the user's previous group,
and schedules the still-future 30- and 10-minute reminders. -/
def aooHourInteraction (ping : String) (nowMs : Int) (ctx : HourCtx)
    (rand30 rand10 : String) (sch : List Job) : HourReply × List Job :=
  match ctx.hourSel with
  | none => (.noHour, sch)
  | some hourStr =>
    if hourStr = "none" then (.noHour, sch)
    else
      match ctx.dayMs, ctx.hourNum, ctx.startMs, ctx.endMs with
      | some day, some hour, some s, some e =>
        let aooStartMs := day + hour * 3600000
        if s ≤ aooStartMs ∧ aooStartMs < e then
          let gk := aooGroupKey ctx.guildId ctx.channelId ctx.userId
          let sch1 := (removeScheduledByGroupKey gk sch).1
          let thirtyMs := aooStartMs - 30 * 60000
          let tenMs := aooStartMs - 10 * 60000
          let startText := formatUTC aooStartMs
          let r2 :=
            if nowMs < thirtyMs then
              (schedulePing
                ⟨ctx.channelId ++ "_" ++ toString thirtyMs ++ "_" ++ rand30,
                 ctx.channelId, thirtyMs,
                 ping ++ "\nAOO starts in **30 minutes** — get ready! (Start: "
                   ++ startText ++ ")", false, some gk⟩ sch1, 1)
            else (sch1, 0)
          let r3 :=
            if nowMs < tenMs then
              (schedulePing
                ⟨ctx.channelId ++ "_" ++ toString tenMs ++ "_" ++ rand10,
                 ctx.channelId, tenMs,
                 ping ++ "\nAOO starts in **10 minutes** — be ready! (Start: "
                   ++ startText ++ ")", false, some gk⟩ r2.1, r2.2 + 1)
            else r2
          let note :=
            if r3.2 = 0 then
              "Both reminder times are already in the past, so nothing was scheduled."
            else
              "Scheduled **" ++ toString r3.2 ++
                "** reminder(s). (Overwrote your previous AOO selection in this channel)"
          (.accepted r3.2
            ("✅ AOO start selected: **" ++ startText ++ "**\n" ++ note), r3.1)
        else (.outsideWindow, sch)
      | _, _, _, _ => (.outsideWindow, sch)


/-! ## Lemmas about strings and keys -/

theorem string_append_cancel_left {a b c : String} (h : a ++ b = a ++ c) :
    b = c := by
  have hd : (a ++ b).data = (a ++ c).data := congrArg String.data h
  rw [String.data_append, String.data_append] at hd
  exact String.ext (List.append_cancel_left hd)

theorem makeKey_inj {p : String} {ev : CalEvent} {s1 s2 : String}
    (h : makeKey p ev s1 = makeKey p ev s2) : s1 = s2 := by
  unfold makeKey at h
  exact string_append_cancel_left h

theorem makeKey_ne {p : String} {ev : CalEvent} {s1 s2 : String}
    (h : s1 ≠ s2) : makeKey p ev s1 ≠ makeKey p ev s2 :=
  fun hk => h (makeKey_inj hk)

/-! ## Lemmas about the cycle fold -/

theorem foldl_stepM_frozen (sendOk : Nat → Bool) (l : List Mile) (c : Cycle)
    (h : c.ok = false) : l.foldl (stepM sendOk) c = c := by
  induction l generalizing c with
  | nil => rfl
  | cons m l ih =>
      have hstep : stepM sendOk c m = c := by
        unfold stepM
        rw [if_neg]
        rintro ⟨h1, -, -⟩
        rw [h] at h1
        exact Bool.false_ne_true h1
      rw [List.foldl_cons, hstep]
      exact ih c h

theorem keysRev_cons (s : Sent) (l : List Sent) (fl : List String) :
    keysRev (s :: l) ++ fl = keysRev l ++ (s.key :: fl) := by
  simp [keysRev]

/-- The fold of `stepM` over the milestone list is exactly `fireO`. -/
theorem foldl_stepM_eq_fireO (sendOk : Nat → Bool) (l : List Mile)
    (fl : List String) (s0 : List Sent) :
    l.foldl (stepM sendOk) ⟨fl, s0, true⟩ =
      ⟨keysRev (fireO sendOk l fl s0.length).1 ++ fl,
       s0 ++ (fireO sendOk l fl s0.length).1,
       (fireO sendOk l fl s0.length).2⟩ := by
  induction l generalizing fl s0 with
  | nil => simp [fireO, keysRev]
  | cons m l ih =>
      rw [List.foldl_cons]
      by_cases hc : m.key ∉ fl ∧ m.cond = true
      · by_cases hs : sendOk s0.length = true
        · have hstep : stepM sendOk ⟨fl, s0, true⟩ m =
              ⟨m.key :: fl, s0 ++ [m.toSent], true⟩ := by
            unfold stepM
            simp [hc.1, hc.2, hs]
          rw [hstep, ih (m.key :: fl) (s0 ++ [m.toSent])]
          have hlen : (s0 ++ [m.toSent]).length = s0.length + 1 := by simp
          rw [hlen]
          simp only [fireO, if_pos hc, if_pos hs, Cycle.mk.injEq,
            keysRev_cons, List.append_assoc, List.singleton_append]
          exact ⟨rfl, trivial, trivial⟩
        · have hs' : sendOk s0.length = false := by
            cases h : sendOk s0.length with
            | true => exact absurd h hs
            | false => rfl
          have hstep : stepM sendOk ⟨fl, s0, true⟩ m = ⟨fl, s0, false⟩ := by
            unfold stepM
            simp [hc.1, hc.2, hs']
          rw [hstep, foldl_stepM_frozen sendOk l _ rfl]
          simp only [fireO, if_pos hc, if_neg hs]
          simp [keysRev]
      · have hstep : stepM sendOk ⟨fl, s0, true⟩ m = ⟨fl, s0, true⟩ := by
          unfold stepM
          rw [if_neg]
          rintro ⟨-, h2, h3⟩
          exact hc ⟨h2, h3⟩
        rw [hstep, ih fl s0]
        simp only [fireO, if_neg hc]

/-- With the all-success oracle, `fireO` is `fire` and never aborts. -/
theorem fireO_allOk (l : List Mile) (fl : List String) (n : Nat) :
    fireO allOk l fl n = (fire l fl, true) := by
  induction l generalizing fl n with
  | nil => rfl
  | cons m l ih =>
      by_cases hc : m.key ∉ fl ∧ m.cond = true
      · simp only [fireO, fire, if_pos hc, allOk, if_pos, ih]
      · simp only [fireO, fire, if_neg hc, ih]

/-- What an aborted cycle sent is an initial segment of what the
all-success cycle sends. -/
theorem fireO_take_fire (sendOk : Nat → Bool) (l : List Mile)
    (fl : List String) (n : Nat) :
    (fire l fl).take (fireO sendOk l fl n).1.length =
      (fireO sendOk l fl n).1 := by
  induction l generalizing fl n with
  | nil => simp [fire, fireO]
  | cons m l ih =>
      by_cases hc : m.key ∉ fl ∧ m.cond = true
      · by_cases hs : sendOk n = true
        · simp only [fireO, fire, if_pos hc, if_pos hs, List.length_cons,
            List.take_succ_cons]
          rw [ih]
        · simp only [fireO, fire, if_pos hc, if_neg hs, List.length_nil,
            List.take_zero]
      · simp only [fireO, fire, if_neg hc]
        exact ih fl n

/-- An aborted cycle sent strictly fewer messages than the all-success
cycle would. -/
theorem fireO_length_lt (sendOk : Nat → Bool) (l : List Mile)
    (fl : List String) (n : Nat) (h : (fireO sendOk l fl n).2 = false) :
    (fireO sendOk l fl n).1.length < (fire l fl).length := by
  induction l generalizing fl n with
  | nil => simp [fireO] at h
  | cons m l ih =>
      by_cases hc : m.key ∉ fl ∧ m.cond = true
      · by_cases hs : sendOk n = true
        · simp only [fireO, fire, if_pos hc, if_pos hs, List.length_cons] at h ⊢
          exact Nat.succ_lt_succ (ih _ _ h)
        · simp only [fireO, fire, if_pos hc, if_neg hs, List.length_nil,
            List.length_cons]
          exact Nat.succ_pos _
      · simp only [fireO, fire, if_neg hc] at h ⊢
        exact ih fl n h

/-- Replay: rerunning with all sends succeeding, starting from the flags the
aborted cycle left behind, sends exactly the messages the aborted cycle
missed, in order. -/
theorem fireO_replay (sendOk : Nat → Bool) (l : List Mile)
    (fl : List String) (n : Nat) (h : (fireO sendOk l fl n).2 = false) :
    fire l (keysRev (fireO sendOk l fl n).1 ++ fl) =
      (fire l fl).drop (fireO sendOk l fl n).1.length := by
  induction l generalizing fl n with
  | nil => simp [fireO] at h
  | cons m l ih =>
      by_cases hc : m.key ∉ fl ∧ m.cond = true
      · by_cases hs : sendOk n = true
        · simp only [fireO, if_pos hc, if_pos hs] at h ⊢
          have hmem : m.key ∈
              keysRev (m.toSent :: (fireO sendOk l (m.key :: fl) (n + 1)).1)
                ++ fl := by
            apply List.mem_append_left
            simp [keysRev, Mile.toSent]
          have hskip : ¬(m.key ∉
              (keysRev (m.toSent :: (fireO sendOk l (m.key :: fl) (n + 1)).1)
                ++ fl) ∧ m.cond = true) := by
            rintro ⟨hnot, -⟩
            exact hnot hmem
          rw [show fire (m :: l)
                (keysRev (m.toSent :: (fireO sendOk l (m.key :: fl) (n + 1)).1)
                  ++ fl) =
              fire l (keysRev (m.toSent ::
                (fireO sendOk l (m.key :: fl) (n + 1)).1) ++ fl) by
            simp only [fire, if_neg hskip]]
          rw [keysRev_cons]
          rw [show (fire (m :: l) fl) = m.toSent :: fire l (m.key :: fl) by
            simp only [fire, if_pos hc]]
          simp only [List.length_cons, List.drop_succ_cons]
          exact ih (m.key :: fl) (n + 1) h
        · simp only [fireO, if_pos hc, if_neg hs]
          simp [keysRev]
      · simp only [fireO, if_neg hc] at h ⊢
        have hskip2 : ¬(m.key ∉
            (keysRev (fireO sendOk l fl n).1 ++ fl) ∧ m.cond = true) := by
          rintro ⟨hnot, hcond⟩
          rcases not_and_or.mp hc with h1 | h2
          · exact hnot (List.mem_append_right _ (not_not.mp h1))
          · exact h2 hcond
        rw [show fire (m :: l) (keysRev (fireO sendOk l fl n).1 ++ fl) =
            fire l (keysRev (fireO sendOk l fl n).1 ++ fl) by
          simp only [fire, if_neg hskip2]]
        rw [show fire (m :: l) fl = fire l fl by simp only [fire, if_neg hc]]
        exact ih fl n h

/-- A key already flagged is never sent. -/
theorem fireO_not_mem_of_flagged (sendOk : Nat → Bool) (l : List Mile)
    (fl : List String) (n : Nat) (x : String) (hx : x ∈ fl) :
    x ∉ (fireO sendOk l fl n).1.map Sent.key := by
  induction l generalizing fl n with
  | nil => simp [fireO]
  | cons m l ih =>
      by_cases hc : m.key ∉ fl ∧ m.cond = true
      · by_cases hs : sendOk n = true
        · simp only [fireO, if_pos hc, if_pos hs, List.map_cons,
            List.mem_cons, Mile.toSent]
          rintro (rfl | hmem)
          · exact hc.1 hx
          · exact ih (m.key :: fl) (n + 1) (List.mem_cons_of_mem _ hx) hmem
        · simp [fireO, if_pos hc, if_neg hs]
      · simp only [fireO, if_neg hc]
        exact ih fl n hx

/-- Within one cycle no key is sent twice. -/
theorem fireO_keys_nodup (sendOk : Nat → Bool) (l : List Mile)
    (fl : List String) (n : Nat) :
    ((fireO sendOk l fl n).1.map Sent.key).Nodup := by
  induction l generalizing fl n with
  | nil => simp [fireO]
  | cons m l ih =>
      by_cases hc : m.key ∉ fl ∧ m.cond = true
      · by_cases hs : sendOk n = true
        · simp only [fireO, if_pos hc, if_pos hs, List.map_cons, Mile.toSent,
            List.nodup_cons]
          exact ⟨fireO_not_mem_of_flagged sendOk l (m.key :: fl) (n + 1)
              m.key (List.mem_cons_self _ _), ih (m.key :: fl) (n + 1)⟩
        · simp [fireO, if_pos hc, if_neg hs]
      · simp only [fireO, if_neg hc]
        exact ih fl n

/-- `fire` on the three milestone blocks of one event with pairwise
distinct keys and no prior flags: each block fires exactly when its
condition holds, in block order. -/
theorem fire_three (m1 m2 m3 : Mile) (h12 : m1.key ≠ m2.key)
    (h13 : m1.key ≠ m3.key) (h23 : m2.key ≠ m3.key) :
    fire [m1, m2, m3] [] =
      (if m1.cond = true then [m1.toSent] else []) ++
      (if m2.cond = true then [m2.toSent] else []) ++
      (if m3.cond = true then [m3.toSent] else []) := by
  by_cases c1 : m1.cond = true <;> by_cases c2 : m2.cond = true <;>
    by_cases c3 : m3.cond = true <;>
      simp [fire, c1, c2, c3, h12.symm, h13.symm, h23.symm, Ne.symm h12,
        Ne.symm h13, Ne.symm h23]

/-- `runCheck` in terms of `fireO`. -/
theorem runCheck_char (cfg : Config) (ping : String) (sendOk : Nat → Bool)
    (now : Int) (events : List CalEvent) (init : List String) :
    runCheck cfg ping sendOk now events init =
      ⟨keysRev (fireO sendOk (cycleMiles cfg ping now events) init 0).1 ++ init,
       (fireO sendOk (cycleMiles cfg ping now events) init 0).1,
       (fireO sendOk (cycleMiles cfg ping now events) init 0).2⟩ := by
  unfold runCheck
  have h := foldl_stepM_eq_fireO sendOk (cycleMiles cfg ping now events) init []
  simpa using h

/-- An all-success `runCheck` sends exactly `fire` of its milestone list. -/
theorem runCheck_allOk_sent (cfg : Config) (ping : String) (now : Int)
    (events : List CalEvent) (init : List String) :
    (runCheck cfg ping allOk now events init).sent =
      fire (cycleMiles cfg ping now events) init := by
  rw [runCheck_char, fireO_allOk]

/-- The cycle milestone list of a single event. -/
theorem cycleMiles_singleton (cfg : Config) (ping : String) (now : Int)
    (ev : CalEvent) :
    cycleMiles cfg ping now [ev] = eventMiles cfg ping now ev := by
  simp [cycleMiles]

/-- The milestone list of a single `ark_registration` event. -/
theorem cycleMiles_ark (cfg : Config) (ping : String) (now : Int)
    (uid day : String) (s e : Int) :
    cycleMiles cfg ping now [⟨uid, day, s, e, some "ark_registration"⟩] =
      arkMiles cfg ping now ⟨uid, day, s, e, some "ark_registration"⟩ := by
  rw [cycleMiles_singleton]
  simp [eventMiles]

/-- The milestone list of a single `mge` event. -/
theorem cycleMiles_mge (cfg : Config) (ping : String) (now : Int)
    (uid day : String) (s e : Int) :
    cycleMiles cfg ping now [⟨uid, day, s, e, some "mge"⟩] =
      mgeMiles cfg ping now ⟨uid, day, s, e, some "mge"⟩ := by
  rw [cycleMiles_singleton]
  simp [eventMiles]

/-! ## Claim theorems -/

/-- **C1, counterexample.**  A registration-window event with
`start = 0`, `end = 100` and a first poll at `now = 200` — past all three
milestone boundaries (`start`, `end − 6h`, `end`), no flag set, every send
succeeding — sends exactly the open and closed messages: two messages, not
the three the claim requires (the warning milestone's trigger demands
`now < end`). -/
theorem catchup_counterexample :
    ((runCheck ⟨none, none, none⟩ "@everyone" allOk 200
        [⟨"u1", "1970-01-01", 0, 100, some "ark_registration"⟩] []).sent.map
          Sent.key =
      [makeKey "AOO_REG" ⟨"u1", "1970-01-01", 0, 100, some "ark_registration"⟩
          "open_at_start",
       makeKey "AOO_REG" ⟨"u1", "1970-01-01", 0, 100, some "ark_registration"⟩
          "closed_at_end"]) ∧
    (runCheck ⟨none, none, none⟩ "@everyone" allOk 200
        [⟨"u1", "1970-01-01", 0, 100, some "ark_registration"⟩] []).sent.length
      ≠ 3 := by
  constructor
  · rfl
  · decide

/-- **C1, amended.**  For a registration-window event, if a single poll runs
when `now` is already past all three milestone boundaries and no flag is yet
set, exactly **two** messages are sent, each exactly once, in open-then-closed
order within that one cycle; the warning is skipped because its trigger
requires `now < end`.  (When `now` is past `start` and `end − 6h` but still
before `end`, the cycle instead sends open then warning.) -/
theorem catchup_past_all_boundaries (cfg : Config) (ping : String)
    (now : Int) (uid day : String) (s e : Int) (h1 : s ≤ now) (h2 : e ≤ now) :
    (runCheck cfg ping allOk now [⟨uid, day, s, e, some "ark_registration"⟩]
        []).sent =
      [⟨makeKey "AOO_REG" ⟨uid, day, s, e, some "ark_registration"⟩
          "open_at_start", ping ++ "\n" ++ aooOpenMsg cfg⟩,
       ⟨makeKey "AOO_REG" ⟨uid, day, s, e, some "ark_registration"⟩
          "closed_at_end", ping ++ "\n" ++ aooClosedMsg⟩] := by
  rw [runCheck_allOk_sent, cycleMiles_ark]
  have k12 := @makeKey_ne "AOO_REG" ⟨uid, day, s, e, some "ark_registration"⟩ "open_at_start" "6h_before_end" (by decide)
  have k13 := @makeKey_ne "AOO_REG" ⟨uid, day, s, e, some "ark_registration"⟩ "open_at_start" "closed_at_end" (by decide)
  have k23 := @makeKey_ne "AOO_REG" ⟨uid, day, s, e, some "ark_registration"⟩ "6h_before_end" "closed_at_end" (by decide)
  rw [show arkMiles cfg ping now ⟨uid, day, s, e, some "ark_registration"⟩ =
      [⟨makeKey "AOO_REG" ⟨uid, day, s, e, some "ark_registration"⟩
          "open_at_start", ping ++ "\n" ++ aooOpenMsg cfg,
        decide (s ≤ now)⟩,
       ⟨makeKey "AOO_REG" ⟨uid, day, s, e, some "ark_registration"⟩
          "6h_before_end", ping ++ "\n" ++ aooWarnMsg,
        decide (addHours e (-6) ≤ now ∧ now < e)⟩,
       ⟨makeKey "AOO_REG" ⟨uid, day, s, e, some "ark_registration"⟩
          "closed_at_end", ping ++ "\n" ++ aooClosedMsg,
        decide (e ≤ now)⟩] from rfl]
  rw [fire_three _ _ _ k12 k13 k23]
  have hw : ¬(addHours e (-6) ≤ now ∧ now < e) := by
    rintro ⟨-, hlt⟩
    omega
  simp [h1, h2, hw, Mile.toSent]

/-- **C1, amended, witness.** -/
theorem catchup_past_all_boundaries_witness :
    (0 : Int) ≤ 200 ∧ (100 : Int) ≤ 200 ∧
    (runCheck ⟨none, none, none⟩ "@everyone" allOk 200
        [⟨"u1", "1970-01-01", 0, 100, some "ark_registration"⟩] []).sent =
      [⟨makeKey "AOO_REG" ⟨"u1", "1970-01-01", 0, 100, some "ark_registration"⟩
          "open_at_start", "@everyone" ++ "\n" ++ aooOpenMsg ⟨none, none, none⟩⟩,
       ⟨makeKey "AOO_REG" ⟨"u1", "1970-01-01", 0, 100, some "ark_registration"⟩
          "closed_at_end", "@everyone" ++ "\n" ++ aooClosedMsg⟩] :=
  ⟨by decide, by decide,
   catchup_past_all_boundaries ⟨none, none, none⟩ "@everyone" 200 "u1"
     "1970-01-01" 0 100 (by decide) (by decide)⟩

/-- **C2.**  For a fetched event with a recognized type tag, polled with no
flag yet set and all sends succeeding, each milestone's message is sent iff
the table's trigger predicate holds at the cycle's `now`:
registration-window (`ark_registration`) open iff `start ≤ now`, warning iff
`end − 6h ≤ now < end`, closed iff `end ≤ now`; deferred-window (`mge`) open
iff `end + 24h ≤ now`, warning iff `start − 48h ≤ now < start − 24h`, closed
iff `start − 24h ≤ now < start`. -/
theorem milestone_triggers_match_table (cfg : Config) (ping : String)
    (now : Int) (uid day : String) (s e : Int) :
    (makeKey "AOO_REG" ⟨uid, day, s, e, some "ark_registration"⟩
        "open_at_start" ∈
      (runCheck cfg ping allOk now
        [⟨uid, day, s, e, some "ark_registration"⟩] []).sent.map Sent.key ↔
      s ≤ now) ∧
    (makeKey "AOO_REG" ⟨uid, day, s, e, some "ark_registration"⟩
        "6h_before_end" ∈
      (runCheck cfg ping allOk now
        [⟨uid, day, s, e, some "ark_registration"⟩] []).sent.map Sent.key ↔
      (addHours e (-6) ≤ now ∧ now < e)) ∧
    (makeKey "AOO_REG" ⟨uid, day, s, e, some "ark_registration"⟩
        "closed_at_end" ∈
      (runCheck cfg ping allOk now
        [⟨uid, day, s, e, some "ark_registration"⟩] []).sent.map Sent.key ↔
      e ≤ now) ∧
    (makeKey "MGE" ⟨uid, day, s, e, some "mge"⟩ "open_24h_after_end" ∈
      (runCheck cfg ping allOk now [⟨uid, day, s, e, some "mge"⟩] []).sent.map
        Sent.key ↔
      addHours e 24 ≤ now) ∧
    (makeKey "MGE" ⟨uid, day, s, e, some "mge"⟩
        "48h_before_start_warn_close_24h" ∈
      (runCheck cfg ping allOk now [⟨uid, day, s, e, some "mge"⟩] []).sent.map
        Sent.key ↔
      (addHours s (-48) ≤ now ∧ now < addHours s (-24))) ∧
    (makeKey "MGE" ⟨uid, day, s, e, some "mge"⟩ "closed_24h_before_start" ∈
      (runCheck cfg ping allOk now [⟨uid, day, s, e, some "mge"⟩] []).sent.map
        Sent.key ↔
      (addHours s (-24) ≤ now ∧ now < s)) := by
  have hA : (runCheck cfg ping allOk now
      [⟨uid, day, s, e, some "ark_registration"⟩] []).sent =
      fire (arkMiles cfg ping now ⟨uid, day, s, e, some "ark_registration"⟩)
        [] := by
    rw [runCheck_allOk_sent, cycleMiles_ark]
  have hM : (runCheck cfg ping allOk now [⟨uid, day, s, e, some "mge"⟩]
      []).sent =
      fire (mgeMiles cfg ping now ⟨uid, day, s, e, some "mge"⟩) [] := by
    rw [runCheck_allOk_sent, cycleMiles_mge]
  have ka12 := @makeKey_ne "AOO_REG" ⟨uid, day, s, e, some "ark_registration"⟩ "open_at_start" "6h_before_end" (by decide)
  have ka13 := @makeKey_ne "AOO_REG" ⟨uid, day, s, e, some "ark_registration"⟩ "open_at_start" "closed_at_end" (by decide)
  have ka23 := @makeKey_ne "AOO_REG" ⟨uid, day, s, e, some "ark_registration"⟩ "6h_before_end" "closed_at_end" (by decide)
  have km12 := @makeKey_ne "MGE" ⟨uid, day, s, e, some "mge"⟩ "open_24h_after_end" "48h_before_start_warn_close_24h" (by decide)
  have km13 := @makeKey_ne "MGE" ⟨uid, day, s, e, some "mge"⟩ "open_24h_after_end" "closed_24h_before_start" (by decide)
  have km23 := @makeKey_ne "MGE" ⟨uid, day, s, e, some "mge"⟩ "48h_before_start_warn_close_24h" "closed_24h_before_start" (by decide)
  rw [hA, hM]
  rw [show arkMiles cfg ping now ⟨uid, day, s, e, some "ark_registration"⟩ =
      [⟨makeKey "AOO_REG" ⟨uid, day, s, e, some "ark_registration"⟩
          "open_at_start", ping ++ "\n" ++ aooOpenMsg cfg, decide (s ≤ now)⟩,
       ⟨makeKey "AOO_REG" ⟨uid, day, s, e, some "ark_registration"⟩
          "6h_before_end", ping ++ "\n" ++ aooWarnMsg,
        decide (addHours e (-6) ≤ now ∧ now < e)⟩,
       ⟨makeKey "AOO_REG" ⟨uid, day, s, e, some "ark_registration"⟩
          "closed_at_end", ping ++ "\n" ++ aooClosedMsg,
        decide (e ≤ now)⟩] from rfl]
  rw [show mgeMiles cfg ping now ⟨uid, day, s, e, some "mge"⟩ =
      [⟨makeKey "MGE" ⟨uid, day, s, e, some "mge"⟩ "open_24h_after_end",
        ping ++ "\n" ++ mgeOpenMsg cfg, decide (addHours e 24 ≤ now)⟩,
       ⟨makeKey "MGE" ⟨uid, day, s, e, some "mge"⟩
          "48h_before_start_warn_close_24h", ping ++ "\n" ++ mgeWarnMsg,
        decide (addHours s (-48) ≤ now ∧ now < addHours s (-24))⟩,
       ⟨makeKey "MGE" ⟨uid, day, s, e, some "mge"⟩ "closed_24h_before_start",
        ping ++ "\n" ++ mgeClosedMsg,
        decide (addHours s (-24) ≤ now ∧ now < s)⟩] from rfl]
  rw [fire_three _ _ _ ka12 ka13 ka23, fire_three _ _ _ km12 km13 km23]
  by_cases c1 : s ≤ now <;>
    by_cases c2 : addHours e (-6) ≤ now ∧ now < e <;>
      by_cases c3 : e ≤ now <;>
        by_cases c4 : addHours e 24 ≤ now <;>
          by_cases c5 : addHours s (-48) ≤ now ∧ now < addHours s (-24) <;>
            by_cases c6 : addHours s (-24) ≤ now ∧ now < s <;>
              simp [c1, c2, c3, c4, c5, c6, Mile.toSent, ka12, ka13, ka23,
                km12, km13, km23, Ne.symm ka12, Ne.symm ka13, Ne.symm ka23,
                Ne.symm km12, Ne.symm km13, Ne.symm km23]

/-- **C3.**  Idempotency: for any event set and any milestone whose flag is
already set in the persisted state, a `pollOnce()` (`runCheck`) invocation —
under any send-success oracle — sends no message for that milestone and
leaves its flag set; moreover no flag ever goes from set to unset (the whole
initial flag set survives the cycle).  Since this holds for arbitrary initial
states containing the flag, it holds for every subsequent invocation. -/
theorem milestone_idempotent (cfg : Config) (ping : String)
    (sendOk : Nat → Bool) (now : Int) (events : List CalEvent)
    (init : List String) (key : String) (h : key ∈ init) :
    key ∈ (runCheck cfg ping sendOk now events init).flags ∧
    key ∉ (runCheck cfg ping sendOk now events init).sent.map Sent.key ∧
    ∀ x ∈ init, x ∈ (runCheck cfg ping sendOk now events init).flags := by
  rw [runCheck_char]
  exact ⟨List.mem_append_right _ h,
    fireO_not_mem_of_flagged sendOk _ init 0 key h,
    fun x hx => List.mem_append_right _ hx⟩

/-- **C3, witness.** -/
theorem milestone_idempotent_witness :
    "k0" ∈ ["k0"] ∧
    ("k0" ∈ (runCheck ⟨none, none, none⟩ "@e" allOk 0
        [⟨"u", "d", 0, 100, some "ark_registration"⟩] ["k0"]).flags ∧
     "k0" ∉ (runCheck ⟨none, none, none⟩ "@e" allOk 0
        [⟨"u", "d", 0, 100, some "ark_registration"⟩] ["k0"]).sent.map
          Sent.key ∧
     ∀ x ∈ ["k0"], x ∈ (runCheck ⟨none, none, none⟩ "@e" allOk 0
        [⟨"u", "d", 0, 100, some "ark_registration"⟩] ["k0"]).flags) :=
  ⟨by decide,
   milestone_idempotent ⟨none, none, none⟩ "@e" allOk 0
     [⟨"u", "d", 0, 100, some "ark_registration"⟩] ["k0"] "k0" (by decide)⟩

/-- **C4.**  If a send fails, the poll cycle aborts: what it sent is a
proper initial segment of what a fully successful cycle would have sent
(remaining milestones of that event and all later events are skipped); its
final flag set is exactly the initial flags plus the flags of the messages
it did send (flags set earlier in the cycle remain set, the failed
milestone's flag is not set — no flag of any missed message is set); and a
next poll with all sends succeeding, started from the aborted cycle's flags,
sends exactly the missed remainder, in order, and completes. -/
theorem send_failure_aborts_and_retries (cfg : Config) (ping : String)
    (sendOk : Nat → Bool) (now : Int) (events : List CalEvent)
    (init : List String)
    (h : (runCheck cfg ping sendOk now events init).ok = false) :
    ((runCheck cfg ping allOk now events init).sent.take
        (runCheck cfg ping sendOk now events init).sent.length =
      (runCheck cfg ping sendOk now events init).sent) ∧
    ((runCheck cfg ping sendOk now events init).sent.length <
      (runCheck cfg ping allOk now events init).sent.length) ∧
    ((runCheck cfg ping sendOk now events init).flags =
      keysRev (runCheck cfg ping sendOk now events init).sent ++ init) ∧
    (∀ sn ∈ (runCheck cfg ping allOk now events init).sent.drop
        (runCheck cfg ping sendOk now events init).sent.length,
      sn.key ∉ (runCheck cfg ping sendOk now events init).flags) ∧
    (runCheck cfg ping allOk now events
        (runCheck cfg ping sendOk now events init).flags =
      ⟨keysRev ((runCheck cfg ping allOk now events init).sent.drop
            (runCheck cfg ping sendOk now events init).sent.length) ++
          (runCheck cfg ping sendOk now events init).flags,
        (runCheck cfg ping allOk now events init).sent.drop
          (runCheck cfg ping sendOk now events init).sent.length,
        true⟩) := by
  have hr := runCheck_char cfg ping sendOk now events init
  have hf := runCheck_char cfg ping allOk now events init
  rw [hr] at h ⊢
  rw [hf]
  rw [fireO_allOk] at hf ⊢
  simp only at h ⊢
  refine ⟨fireO_take_fire sendOk _ init 0, fireO_length_lt sendOk _ init 0 h,
    trivial, ?_, ?_⟩
  · intro sn hsn
    rw [List.mem_append]
    rintro (hks | hinit)
    · have hnd : ((fire (cycleMiles cfg ping now events) init).map
          Sent.key).Nodup := by
        have := fireO_keys_nodup allOk (cycleMiles cfg ping now events) init 0
        rwa [fireO_allOk] at this
      have hsplit : (fire (cycleMiles cfg ping now events) init).map Sent.key =
          ((fire (cycleMiles cfg ping now events) init).take
              (fireO sendOk (cycleMiles cfg ping now events) init 0).1.length).map
            Sent.key ++
          ((fire (cycleMiles cfg ping now events) init).drop
              (fireO sendOk (cycleMiles cfg ping now events) init 0).1.length).map
            Sent.key := by
        rw [← List.map_append, List.take_append_drop]
      rw [hsplit] at hnd
      have hdisj := List.disjoint_of_nodup_append hnd
      have hsk : sn.key ∈ ((fire (cycleMiles cfg ping now events) init).drop
          (fireO sendOk (cycleMiles cfg ping now events) init 0).1.length).map
            Sent.key := List.mem_map_of_mem Sent.key hsn
      have hsk2 : sn.key ∈ ((fire (cycleMiles cfg ping now events) init).take
          (fireO sendOk (cycleMiles cfg ping now events) init 0).1.length).map
            Sent.key := by
        rw [fireO_take_fire]
        simpa [keysRev] using hks
      exact hdisj hsk2 hsk
    · have := fireO_not_mem_of_flagged allOk (cycleMiles cfg ping now events)
        init 0 sn.key hinit
      rw [fireO_allOk] at this
      exact this (List.mem_map_of_mem Sent.key (List.mem_of_mem_drop hsn))
  · rw [runCheck_char, fireO_allOk]
    have hrep := fireO_replay sendOk (cycleMiles cfg ping now events) init 0 h
    rw [hrep]

/-- **C5.**  `cancelGroup(groupKey)`: a no-op returning 0 (and not
persisting) for an empty key; otherwise it removes exactly the unsent
matching jobs — the returned count is the number of unsent jobs of that
group, every sent job and every job of another group survives, only
surviving jobs remain, it persists iff the count is nonzero, and after
appending fresh unsent jobs under that key the unsent jobs of the key are
exactly the fresh ones. -/
theorem cancelGroup_spec (gk : String) (sch : List Job) :
    (gk = "" → removeScheduledByGroupKey gk sch = (sch, 0, false)) ∧
    (gk ≠ "" →
      ((removeScheduledByGroupKey gk sch).2.1 =
        (sch.filter fun x => !x.sent && decide (x.groupKey = some gk)).length)
      ∧
      (∀ j ∈ sch, j.sent = true ∨ j.groupKey ≠ some gk →
        j ∈ (removeScheduledByGroupKey gk sch).1) ∧
      (∀ j ∈ (removeScheduledByGroupKey gk sch).1,
        j ∈ sch ∧ (j.sent = true ∨ j.groupKey ≠ some gk)) ∧
      ((removeScheduledByGroupKey gk sch).2.2 = true ↔
        (removeScheduledByGroupKey gk sch).2.1 ≠ 0) ∧
      (∀ newJobs : List Job,
        (∀ j ∈ newJobs, j.sent = false ∧ j.groupKey = some gk) →
        ((removeScheduledByGroupKey gk sch).1 ++ newJobs).filter
            (fun x => !x.sent && decide (x.groupKey = some gk)) = newJobs)) := by
  constructor
  · intro h
    simp [removeScheduledByGroupKey, h]
  · intro h
    have hsplit :
        (sch.filter fun x => x.sent || decide (x.groupKey ≠ some gk)).length +
          (sch.filter fun x => !x.sent && decide (x.groupKey = some gk)).length
          = sch.length := by
      induction sch with
      | nil => rfl
      | cons a l ih =>
          rw [List.filter_cons, List.filter_cons]
          cases hxs : a.sent <;> by_cases hg : a.groupKey = some gk <;>
            simp [hxs, hg, decide_not] at ih ⊢ <;> omega
    refine ⟨?_, ?_, ?_, ?_, ?_⟩
    · simp only [removeScheduledByGroupKey, if_neg h]
      omega
    · intro j hj hcase
      simp only [removeScheduledByGroupKey, if_neg h]
      rw [List.mem_filter]
      refine ⟨hj, ?_⟩
      rcases hcase with hs | hg
      · simp [hs]
      · simp [hg]
    · intro j hj
      simp only [removeScheduledByGroupKey, if_neg h] at hj
      rw [List.mem_filter] at hj
      refine ⟨hj.1, ?_⟩
      have := hj.2
      cases hxs : j.sent
      · right
        simp [hxs] at this
        exact this
      · left
        rfl
    · simp only [removeScheduledByGroupKey, if_neg h]
      simp
    · intro newJobs hnew
      simp only [removeScheduledByGroupKey, if_neg h]
      rw [List.filter_append]
      have h1 : (sch.filter fun x =>
          x.sent || decide (x.groupKey ≠ some gk)).filter
            (fun x => !x.sent && decide (x.groupKey = some gk)) = [] := by
        rw [List.filter_eq_nil_iff]
        intro a ha
        rw [List.mem_filter] at ha
        have := ha.2
        cases hxs : a.sent <;> by_cases hg : a.groupKey = some gk <;>
          simp [hxs, hg] at this ⊢
      have h2 : newJobs.filter
          (fun x => !x.sent && decide (x.groupKey = some gk)) = newJobs := by
        rw [List.filter_eq_self]
        intro a ha
        have := hnew a ha
        simp [this.1, this.2]
      rw [h1, h2, List.nil_append]

/-- **C5, witness.** -/
theorem cancelGroup_spec_witness :
    ("g1" : String) ≠ "" ∧
    (removeScheduledByGroupKey "g1"
      [⟨"a", "c", 5, "m", false, some "g1"⟩,
       ⟨"b", "c", 6, "m", true, some "g1"⟩,
       ⟨"d", "c", 7, "m", false, some "g2"⟩]).2.1 =
      ([⟨"a", "c", 5, "m", false, some "g1"⟩,
        ⟨"b", "c", 6, "m", true, some "g1"⟩,
        ⟨"d", "c", 7, "m", false, some "g2"⟩].filter
          fun (x : Job) => !x.sent && decide (x.groupKey = some "g1")).length :=
  ⟨by decide,
   ((cancelGroup_spec "g1"
      [⟨"a", "c", 5, "m", false, some "g1"⟩,
       ⟨"b", "c", 6, "m", true, some "g1"⟩,
       ⟨"d", "c", 7, "m", false, some "g2"⟩]).2 (by decide)).1⟩

/-- Marking is the only way `sent` flips, and it flips exactly for due unsent
jobs. -/
theorem markDue_sent_iff (now : Int) (j : Job) :
    (markDue now j).sent = true ↔ (j.sent = true ∨ j.runAtMs ≤ now) := by
  unfold markDue
  by_cases hc : j.sent = false ∧ j.runAtMs ≤ now
  · simp [hc, hc.2]
  · rw [if_neg hc]
    cases hs : j.sent
    · simp [hs] at hc
      simp [hs]
      omega
    · simp [hs]

/-- Map-filter fusion for the sweep: the persisted queue after a sweep is
exactly the not-yet-due unsent jobs, unchanged. -/
theorem sweep_kept_eq (now : Int) (sch : List Job) :
    (sch.map (markDue now)).filter (fun x => !x.sent) =
      sch.filter fun x => !x.sent && decide (now < x.runAtMs) := by
  induction sch with
  | nil => rfl
  | cons j l ih =>
      rw [List.map_cons, List.filter_cons, List.filter_cons]
      by_cases hc : j.sent = false ∧ j.runAtMs ≤ now
      · have hm : (markDue now j).sent = true := by
          rw [markDue_sent_iff]
          right
          exact hc.2
        have hr : ¬ now < j.runAtMs := by omega
        simp [hm, hc.1, hr, ih]
      · have hm : markDue now j = j := by
          unfold markDue
          rw [if_neg hc]
        rw [hm]
        cases hs : j.sent
        · have hr : now < j.runAtMs := by
            rcases not_and_or.mp hc with h1 | h2
            · exact absurd hs (by simpa using h1)
            · omega
          simp [hs, hr, ih]
        · simp [hs, ih]

theorem filter_length_ne_iff {α : Type} (l : List α) (p : α → Bool) :
    (l.filter p).length ≠ l.length ↔ ∃ x ∈ l, p x = false := by
  rw [Ne, List.filter_length_eq_length]
  simp

/-- **C6.**  One sweep: every due unsent job's delivery is attempted and the
job is marked sent and evicted regardless of the delivery outcome (the new
queue does not depend on the channel oracle at all); every previously sent
job is also dropped; the queue keeps exactly the unsent not-yet-due jobs,
unchanged; and the sweep persists (once) iff something changed — i.e. iff
some job was sent before the sweep or became due during it. -/
theorem sweep_spec (fetch : String → Option ChannelInfo) (now : Int)
    (sch : List Job) :
    ((processScheduled fetch now sch).kept =
      sch.filter fun x => !x.sent && decide (now < x.runAtMs)) ∧
    (∀ j ∈ sch, j.sent = false → j.runAtMs ≤ now →
      j ∈ (processScheduled fetch now sch).attempts ∧
      j ∉ (processScheduled fetch now sch).kept) ∧
    (∀ j ∈ sch, j.sent = true → j ∉ (processScheduled fetch now sch).kept) ∧
    ((processScheduled fetch now sch).saved = true ↔
      ∃ j ∈ sch, j.sent = true ∨ j.runAtMs ≤ now) := by
  have hkept : (processScheduled fetch now sch).kept =
      sch.filter fun x => !x.sent && decide (now < x.runAtMs) :=
    sweep_kept_eq now sch
  refine ⟨hkept, ?_, ?_, ?_⟩
  · intro j hj hs hd
    constructor
    · simp only [processScheduled, List.mem_filter]
      exact ⟨hj, by simp [hs, hd]⟩
    · rw [hkept, List.mem_filter]
      rintro ⟨-, hp⟩
      simp [hs] at hp
      omega
  · intro j hj hs
    rw [hkept, List.mem_filter]
    rintro ⟨-, hp⟩
    simp [hs] at hp
  · simp only [processScheduled]
    rw [Bool.or_eq_true, decide_eq_true_iff]
    rw [filter_length_ne_iff (sch.map (markDue now)) (fun x => !x.sent)]
    constructor
    · rintro (h1 | h2)
      · rw [List.any_eq_true] at h1
        obtain ⟨j, hj, hp⟩ := h1
        refine ⟨j, hj, Or.inr ?_⟩
        simp at hp
        exact hp.2
      · obtain ⟨x, hx, hp⟩ := h2
        rw [List.mem_map] at hx
        obtain ⟨j, hj, rfl⟩ := hx
        refine ⟨j, hj, ?_⟩
        rw [← markDue_sent_iff now j]
        simpa using hp
    · rintro ⟨j, hj, hcase⟩
      right
      refine ⟨markDue now j, List.mem_map_of_mem _ hj, ?_⟩
      have : (markDue now j).sent = true := (markDue_sent_iff now j).mpr hcase
      simp [this]

/-- **C6, witness.** -/
theorem sweep_spec_witness :
    (processScheduled (fun _ => some ⟨true⟩) 6
        [⟨"a", "c", 5, "m", false, some "g1"⟩,
         ⟨"b", "c", 6, "m", true, some "g1"⟩,
         ⟨"d", "c", 7, "m", false, some "g2"⟩]).kept =
      ([⟨"a", "c", 5, "m", false, some "g1"⟩,
        ⟨"b", "c", 6, "m", true, some "g1"⟩,
        ⟨"d", "c", 7, "m", false, some "g2"⟩].filter
          fun (x : Job) => !x.sent && decide ((6 : Int) < x.runAtMs)) :=
  (sweep_spec (fun _ => some ⟨true⟩) 6
    [⟨"a", "c", 5, "m", false, some "g1"⟩,
     ⟨"b", "c", 6, "m", true, some "g1"⟩,
     ⟨"d", "c", 7, "m", false, some "g2"⟩]).1

/-- **C10.**  A due unsent job whose channel does not resolve or resolves to
a non-text-based channel is skipped for delivery (`ch.send` is never
reached), yet its `try` block still runs, it is still marked sent and
evicted from the queue; `processScheduled` is a total function — the
source's per-item `try/catch` swallows every resolution or send error, so
no exception escapes the sweep loop. -/
theorem sweep_unresolvable_channel (fetch : String → Option ChannelInfo)
    (now : Int) (sch : List Job) (j : Job) (hj : j ∈ sch)
    (hs : j.sent = false) (hd : j.runAtMs ≤ now)
    (hch : fetch j.channelId = none ∨
      ∃ ch, fetch j.channelId = some ch ∧ ch.isTextBased = false) :
    j ∉ (processScheduled fetch now sch).sends ∧
    j ∈ (processScheduled fetch now sch).attempts ∧
    j ∉ (processScheduled fetch now sch).kept := by
  refine ⟨?_, ?_, ?_⟩
  · simp only [processScheduled, List.mem_filter]
    rintro ⟨-, hp⟩
    rcases hch with hnone | ⟨ch, hch, htb⟩
    · rw [hnone] at hp
      simp at hp
    · rw [hch] at hp
      simp [htb] at hp
  · simp only [processScheduled, List.mem_filter]
    exact ⟨hj, by simp [hs, hd]⟩
  · rw [show (processScheduled fetch now sch).kept =
        sch.filter (fun x => !x.sent && decide (now < x.runAtMs)) from
      sweep_kept_eq now sch, List.mem_filter]
    rintro ⟨-, hp⟩
    simp [hs] at hp
    omega

/-- **C10, witness.** -/
theorem sweep_unresolvable_channel_witness :
    (⟨"a", "c", 5, "m", false, some "g1"⟩ : Job) ∈
        [(⟨"a", "c", 5, "m", false, some "g1"⟩ : Job)] ∧
    (⟨"a", "c", 5, "m", false, some "g1"⟩ : Job) ∉
      (processScheduled (fun _ => none) 6
        [⟨"a", "c", 5, "m", false, some "g1"⟩]).sends :=
  ⟨by decide,
   (sweep_unresolvable_channel (fun _ => none) 6
     [⟨"a", "c", 5, "m", false, some "g1"⟩]
     ⟨"a", "c", 5, "m", false, some "g1"⟩ (by decide) (by decide) (by decide)
     (Or.inl rfl)).1⟩

theorem pickFirstMin_eq_none_iff (l : List AooRun) :
    pickFirstMin l = none ↔ l = [] := by
  cases l with
  | nil => simp [pickFirstMin]
  | cons x xs =>
      rw [pickFirstMin]
      cases h : pickFirstMin xs with
      | none => simp
      | some b =>
          dsimp only
          by_cases hle : x.startMs ≤ b.startMs
          · rw [if_pos hle]
            simp
          · rw [if_neg hle]
            simp

theorem pickFirstMin_mem (l : List AooRun) (x : AooRun)
    (h : pickFirstMin l = some x) : x ∈ l := by
  induction l with
  | nil => simp [pickFirstMin] at h
  | cons y ys ih =>
      rw [pickFirstMin] at h
      cases hp : pickFirstMin ys with
      | none =>
          rw [hp] at h
          simp at h
          simp [h]
      | some b =>
          rw [hp] at h
          dsimp only at h
          by_cases hle : y.startMs ≤ b.startMs
          · rw [if_pos hle] at h
            simp at h
            simp [h]
          · rw [if_neg hle] at h
            simp at h
            rw [h] at hp
            exact List.mem_cons_of_mem _ (ih hp)

theorem pickFirstMin_min (l : List AooRun) (x : AooRun)
    (h : pickFirstMin l = some x) : ∀ z ∈ l, x.startMs ≤ z.startMs := by
  induction l generalizing x with
  | nil => simp [pickFirstMin] at h
  | cons y ys ih =>
      rw [pickFirstMin] at h
      cases hp : pickFirstMin ys with
      | none =>
          rw [hp] at h
          simp at h
          rw [pickFirstMin_eq_none_iff] at hp
          subst hp
          simp [← h]
      | some b =>
          rw [hp] at h
          dsimp only at h
          intro z hz
          rcases List.mem_cons.mp hz with hz1 | hzs
          · rw [hz1]
            by_cases hle : y.startMs ≤ b.startMs
            · rw [if_pos hle] at h
              simp at h
              simp [← h]
            · rw [if_neg hle] at h
              simp at h
              rw [← h]
              omega
          · have hb := ih b hp z hzs
            by_cases hle : y.startMs ≤ b.startMs
            · rw [if_pos hle] at h
              simp at h
              rw [← h]
              omega
            · rw [if_neg hle] at h
              simp at h
              rw [← h]
              omega

/-- **C8.**  Initiate: `getNextAooRunEvent` returns `none` iff no event of an
AOO type still has its end in the future, and otherwise returns a qualifying
event with the earliest start; `listUtcDatesInRange` contains exactly the
UTC-day starts in `[dayFloor start, dayFloor end)`; and the date select
offers at most 25 options, each labelled with the ISO date of one of those
days — all of them whenever the whole range fits in 25. -/
theorem aoo_initiate_spec (now : Int) (events : List CalEvent) (a b : Int) :
    (getNextAooRunEvent now events = none ↔
      ∀ ev ∈ events, isAooType ev = true → ev.endMs ≤ now) ∧
    (∀ x, getNextAooRunEvent now events = some x →
      (∃ ev ∈ events, isAooType ev = true ∧ now < ev.endMs ∧ x = toAooRun ev)
      ∧
      ∀ ev ∈ events, isAooType ev = true → now < ev.endMs →
        x.startMs ≤ ev.startMs) ∧
    (∀ d : Int, d ∈ listUtcDatesInRange a b ↔
      (dayFloor d = d ∧ dayFloor a ≤ d ∧ d < dayFloor b)) ∧
    ((buildDateSelect a b (listUtcDatesInRange a b)).2.length ≤ 25) ∧
    (∀ o ∈ (buildDateSelect a b (listUtcDatesInRange a b)).2,
      ∃ d : Int, (dayFloor d = d ∧ dayFloor a ≤ d ∧ d < dayFloor b) ∧
        o = (isoDateUTC d, isoDateUTC d)) ∧
    ((listUtcDatesInRange a b).length ≤ 25 →
      ∀ d : Int, dayFloor d = d → dayFloor a ≤ d → d < dayFloor b →
        (isoDateUTC d, isoDateUTC d) ∈
          (buildDateSelect a b (listUtcDatesInRange a b)).2) := by
  have hmem : ∀ d : Int, d ∈ listUtcDatesInRange a b ↔
      (dayFloor d = d ∧ dayFloor a ≤ d ∧ d < dayFloor b) := by
    intro d
    unfold listUtcDatesInRange dayFloor MS_PER_DAY
    rw [List.mem_map]
    constructor
    · rintro ⟨i, hir, rfl⟩
      rw [List.mem_range] at hir
      refine ⟨?_, ?_, ?_⟩ <;> omega
    · rintro ⟨h1, h2, h3⟩
      refine ⟨((d - (a - a % 86400000)) / 86400000).toNat, ?_, ?_⟩
      · rw [List.mem_range]
        omega
      · omega
  refine ⟨?_, ?_, hmem, ?_, ?_, ?_⟩
  · unfold getNextAooRunEvent
    rw [pickFirstMin_eq_none_iff]
    simp only [List.filter_eq_nil_iff, List.mem_map, List.mem_filter]
    constructor
    · intro h ev hev htype
      have h2 := h (toAooRun ev) ⟨ev, ⟨hev, htype⟩, rfl⟩
      simp only [toAooRun, decide_eq_true_eq] at h2
      omega
    · rintro h x ⟨ev, ⟨hev, htype⟩, rfl⟩
      have h2 := h ev hev htype
      simp only [toAooRun, decide_eq_true_eq]
      omega
  · intro x hx
    constructor
    · have hm := pickFirstMin_mem _ _ hx
      rw [List.mem_filter, List.mem_map] at hm
      obtain ⟨⟨ev, hev, rfl⟩, hp⟩ := hm
      rw [List.mem_filter] at hev
      exact ⟨ev, hev.1, hev.2, by simpa [toAooRun] using hp, rfl⟩
    · intro ev hev htype hlt
      have hin : toAooRun ev ∈
          ((events.filter isAooType).map toAooRun).filter fun x =>
            decide (now < x.endMs) := by
        rw [List.mem_filter]
        refine ⟨List.mem_map_of_mem _ (List.mem_filter.mpr ⟨hev, htype⟩), ?_⟩
        simpa [toAooRun] using hlt
      exact pickFirstMin_min _ _ hx (toAooRun ev) hin
  · simp only [buildDateSelect, List.length_map, List.length_take]
    omega
  · intro o ho
    simp only [buildDateSelect, List.mem_map] at ho
    obtain ⟨d, hd, rfl⟩ := ho
    have hd2 : d ∈ listUtcDatesInRange a b := List.mem_of_mem_take hd
    exact ⟨d, (hmem d).mp hd2, rfl⟩
  · intro hlen d h1 h2 h3
    simp only [buildDateSelect, List.mem_map]
    refine ⟨d, ?_, rfl⟩
    rw [List.take_of_length_le hlen]
    exact (hmem d).mpr ⟨h1, h2, h3⟩

/-- **C8, witness.**  A two-day window. -/
theorem aoo_initiate_spec_witness :
    getNextAooRunEvent 45 [⟨"x", "d", 50, 100, some "aoo"⟩] = none ↔
      ∀ ev ∈ [(⟨"x", "d", 50, 100, some "aoo"⟩ : CalEvent)],
        isAooType ev = true → ev.endMs ≤ 45 :=
  (aoo_initiate_spec 45 [⟨"x", "d", 50, 100, some "aoo"⟩] 0 172800000).1

/-- After a non-empty-key cancel, no unsent job of that group survives. -/
theorem cancel_filter_nil (gk : String) (sch : List Job) (h : gk ≠ "") :
    (removeScheduledByGroupKey gk sch).1.filter
      (fun x => !x.sent && decide (x.groupKey = some gk)) = [] := by
  rw [List.filter_eq_nil_iff]
  intro j hj
  simp only [removeScheduledByGroupKey, if_neg h] at hj
  rw [List.mem_filter] at hj
  have h2 := hj.2
  cases hs : j.sent <;> by_cases hg : j.groupKey = some gk <;>
    simp [hs, hg] at h2 ⊢

/-- The selection-protocol group key is never the empty string. -/
theorem aooGroupKey_ne (g c u : String) : aooGroupKey g c u ≠ "" := by
  intro h
  have hl := congrArg String.length h
  simp [aooGroupKey, String.length_append] at hl
  exact absurd hl.1.1.1.1.1 (by decide)

/-- **C9.**  The `aoo_hour` handler rejects — with a user-visible error reply
and no queue mutation (no job scheduled, no group cancelled) — a missing
selection, the "No valid hours" sentinel, a malformed token (any component
whose numeric parse is `NaN`, modeled as `none`), and an hour whose combined
instant falls outside `[start, end)`.  The handler is a total function: the
source's surrounding `try/catch` turns any other failure into an ephemeral
error reply, so the flow never crashes. -/
theorem aoo_hour_reject_spec (ping : String) (nowMs : Int) (ctx : HourCtx)
    (r30 r10 : String) (sch : List Job) :
    (ctx.hourSel = none →
      aooHourInteraction ping nowMs ctx r30 r10 sch =
        (HourReply.noHour, sch)) ∧
    (ctx.hourSel = some "none" →
      aooHourInteraction ping nowMs ctx r30 r10 sch =
        (HourReply.noHour, sch)) ∧
    (∀ hstr, ctx.hourSel = some hstr → hstr ≠ "none" →
      (ctx.dayMs = none ∨ ctx.hourNum = none ∨ ctx.startMs = none ∨
        ctx.endMs = none) →
      aooHourInteraction ping nowMs ctx r30 r10 sch =
        (HourReply.outsideWindow, sch)) ∧
    (∀ hstr day hour s e, ctx.hourSel = some hstr → hstr ≠ "none" →
      ctx.dayMs = some day → ctx.hourNum = some hour → ctx.startMs = some s →
      ctx.endMs = some e →
      ¬(s ≤ day + hour * 3600000 ∧ day + hour * 3600000 < e) →
      aooHourInteraction ping nowMs ctx r30 r10 sch =
        (HourReply.outsideWindow, sch)) := by
  obtain ⟨cs, ce, cd, chsel, chnum, g, ch, u⟩ := ctx
  refine ⟨?_, ?_, ?_, ?_⟩
  · intro h
    simp only at h
    subst h
    rfl
  · intro h
    simp only at h
    subst h
    simp [aooHourInteraction]
  · intro hstr h hne hdis
    simp only at h hdis
    subst h
    rcases cd with _ | day <;> rcases chnum with _ | hour <;>
      rcases cs with _ | s <;> rcases ce with _ | e <;>
        simp [aooHourInteraction, hne] at hdis ⊢
  · intro hstr day hour s e h hne hd hh hs he hwin
    simp only at h hd hh hs he
    subst h
    subst hd
    subst hh
    subst hs
    subst he
    simp [aooHourInteraction, hne, hwin]

/-- **C9, witness.** -/
theorem aoo_hour_reject_spec_witness :
    (⟨none, none, none, none, none, "g", "c", "u"⟩ : HourCtx).hourSel = none ∧
    aooHourInteraction "@e" 0 ⟨none, none, none, none, none, "g", "c", "u"⟩
      "r" "r" [] = (HourReply.noHour, []) :=
  ⟨rfl, (aoo_hour_reject_spec "@e" 0
    ⟨none, none, none, none, none, "g", "c", "u"⟩ "r" "r" []).1 rfl⟩

/-- **C7.**  On a valid hour selection inside `[start, end)` the handler
replies `accepted`, reporting a count equal to the number of unsent jobs of
the `(guild, channel, user)` group key in the resulting queue — the group
was cancelled first, so those are exactly the newly created jobs; a job is
created for each of the `instant − 30min` and `instant − 10min` offsets that
is strictly in the future; the count is at most 2, it is 0 exactly when both
offsets are already past, and then the reply says so explicitly. -/
theorem aoo_hour_accept_spec (ping : String) (nowMs day hour s e : Int)
    (hstr g ch u r30 r10 : String) (sch : List Job) (hne : hstr ≠ "none")
    (hwin : s ≤ day + hour * 3600000 ∧ day + hour * 3600000 < e) :
    ∃ cnt content,
      (aooHourInteraction ping nowMs
        ⟨some s, some e, some day, some hstr, some hour, g, ch, u⟩
        r30 r10 sch).1 = HourReply.accepted cnt content ∧
      cnt = ((aooHourInteraction ping nowMs
        ⟨some s, some e, some day, some hstr, some hour, g, ch, u⟩
        r30 r10 sch).2.filter fun x => !x.sent &&
          decide (x.groupKey = some (aooGroupKey g ch u))).length ∧
      cnt ≤ 2 ∧
      (cnt = 0 ↔ (day + hour * 3600000 - 30 * 60000 ≤ nowMs ∧
        day + hour * 3600000 - 10 * 60000 ≤ nowMs)) ∧
      (cnt = 0 → content = "✅ AOO start selected: **" ++
        formatUTC (day + hour * 3600000) ++ "**\n" ++
        "Both reminder times are already in the past, so nothing was scheduled.") ∧
      (∀ j ∈ (aooHourInteraction ping nowMs
          ⟨some s, some e, some day, some hstr, some hour, g, ch, u⟩
          r30 r10 sch).2,
        (!j.sent && decide (j.groupKey = some (aooGroupKey g ch u))) = true →
        nowMs < j.runAtMs ∧
          (j.runAtMs = day + hour * 3600000 - 30 * 60000 ∨
           j.runAtMs = day + hour * 3600000 - 10 * 60000)) ∧
      (nowMs < day + hour * 3600000 - 30 * 60000 →
        ∃ j ∈ (aooHourInteraction ping nowMs
            ⟨some s, some e, some day, some hstr, some hour, g, ch, u⟩
            r30 r10 sch).2,
          j.sent = false ∧ j.groupKey = some (aooGroupKey g ch u) ∧
            j.runAtMs = day + hour * 3600000 - 30 * 60000) ∧
      (nowMs < day + hour * 3600000 - 10 * 60000 →
        ∃ j ∈ (aooHourInteraction ping nowMs
            ⟨some s, some e, some day, some hstr, some hour, g, ch, u⟩
            r30 r10 sch).2,
          j.sent = false ∧ j.groupKey = some (aooGroupKey g ch u) ∧
            j.runAtMs = day + hour * 3600000 - 10 * 60000) := by
  have hgk := aooGroupKey_ne g ch u
  have hkp := List.filter_eq_nil_iff.mp
    (cancel_filter_nil (aooGroupKey g ch u) sch hgk)
  by_cases h30 : nowMs < day + hour * 3600000 - 30 * 60000 <;>
    by_cases h10 : nowMs < day + hour * 3600000 - 10 * 60000
  · -- both offsets in the future: two jobs
    have hred : aooHourInteraction ping nowMs
        ⟨some s, some e, some day, some hstr, some hour, g, ch, u⟩
        r30 r10 sch =
      (HourReply.accepted 2 ("✅ AOO start selected: **"
          ++ formatUTC (day + hour * 3600000) ++ "**\n"
          ++ ("Scheduled **" ++ toString 2
          ++ "** reminder(s). (Overwrote your previous AOO selection in this channel)")),
        ((removeScheduledByGroupKey (aooGroupKey g ch u) sch).1 ++
          [⟨ch ++ "_" ++ toString (day + hour * 3600000 - 30 * 60000) ++ "_"
              ++ r30, ch, day + hour * 3600000 - 30 * 60000,
            ping ++ "\nAOO starts in **30 minutes** — get ready! (Start: "
              ++ formatUTC (day + hour * 3600000) ++ ")", false,
            some (aooGroupKey g ch u)⟩]) ++
          [⟨ch ++ "_" ++ toString (day + hour * 3600000 - 10 * 60000) ++ "_"
              ++ r10, ch, day + hour * 3600000 - 10 * 60000,
            ping ++ "\nAOO starts in **10 minutes** — be ready! (Start: "
              ++ formatUTC (day + hour * 3600000) ++ ")", false,
            some (aooGroupKey g ch u)⟩]) := by
      unfold aooHourInteraction
      dsimp only
      rw [if_neg hne, if_pos hwin, if_pos h30, if_pos h10]
      rfl
    rw [hred]
    dsimp only
    refine ⟨2, _, rfl, ?_, by omega, by constructor <;> omega,
      fun habs => absurd habs (by decide), ?_, ?_, ?_⟩
    · rw [List.filter_append, List.filter_append,
        cancel_filter_nil (aooGroupKey g ch u) sch hgk]
      simp
    · intro j hj hpred
      rcases List.mem_append.mp hj with hj2 | hj3
      · rcases List.mem_append.mp hj2 with hjk | hj30
        · exact absurd hpred (by simp [hkp j hjk])
        · rw [List.mem_singleton] at hj30
          subst hj30
          exact ⟨h30, Or.inl rfl⟩
      · rw [List.mem_singleton] at hj3
        subst hj3
        exact ⟨h10, Or.inr rfl⟩
    · intro h
      refine ⟨_, List.mem_append_left _ (List.mem_append_right _
        (List.mem_singleton_self _)), rfl, rfl, rfl⟩
    · intro h
      refine ⟨_, List.mem_append_right _ (List.mem_singleton_self _),
        rfl, rfl, rfl⟩
  · exact absurd h10 (by omega)
  · -- only the 10-minute offset is in the future: one job
    have hred : aooHourInteraction ping nowMs
        ⟨some s, some e, some day, some hstr, some hour, g, ch, u⟩
        r30 r10 sch =
      (HourReply.accepted 1 ("✅ AOO start selected: **"
          ++ formatUTC (day + hour * 3600000) ++ "**\n"
          ++ ("Scheduled **" ++ toString 1
          ++ "** reminder(s). (Overwrote your previous AOO selection in this channel)")),
        (removeScheduledByGroupKey (aooGroupKey g ch u) sch).1 ++
          [⟨ch ++ "_" ++ toString (day + hour * 3600000 - 10 * 60000) ++ "_"
              ++ r10, ch, day + hour * 3600000 - 10 * 60000,
            ping ++ "\nAOO starts in **10 minutes** — be ready! (Start: "
              ++ formatUTC (day + hour * 3600000) ++ ")", false,
            some (aooGroupKey g ch u)⟩]) := by
      unfold aooHourInteraction
      dsimp only
      rw [if_neg hne, if_pos hwin, if_neg h30, if_pos h10]
      rfl
    rw [hred]
    dsimp only
    refine ⟨1, _, rfl, ?_, by omega, by constructor <;> omega,
      fun habs => absurd habs (by decide), ?_, fun h => absurd h h30, ?_⟩
    · rw [List.filter_append,
        cancel_filter_nil (aooGroupKey g ch u) sch hgk]
      simp
    · intro j hj hpred
      rcases List.mem_append.mp hj with hjk | hj3
      · exact absurd hpred (by simp [hkp j hjk])
      · rw [List.mem_singleton] at hj3
        subst hj3
        exact ⟨h10, Or.inr rfl⟩
    · intro h
      refine ⟨_, List.mem_append_right _ (List.mem_singleton_self _),
        rfl, rfl, rfl⟩
  · -- both offsets already past: nothing scheduled
    have hred : aooHourInteraction ping nowMs
        ⟨some s, some e, some day, some hstr, some hour, g, ch, u⟩
        r30 r10 sch =
      (HourReply.accepted 0 ("✅ AOO start selected: **"
          ++ formatUTC (day + hour * 3600000) ++ "**\n" ++
          "Both reminder times are already in the past, so nothing was scheduled."),
        (removeScheduledByGroupKey (aooGroupKey g ch u) sch).1) := by
      unfold aooHourInteraction
      dsimp only
      rw [if_neg hne, if_pos hwin, if_neg h30, if_neg h10]
      rfl
    rw [hred]
    dsimp only
    refine ⟨0, _, rfl, ?_, by omega, by constructor <;> intro <;> omega,
      fun _ => rfl, ?_, fun h => absurd h h30, fun h => absurd h h10⟩
    · rw [cancel_filter_nil (aooGroupKey g ch u) sch hgk]
      rfl
    · intro j hj hpred
      exact absurd hpred (by simp [hkp j hj])

/-- **C7, witness.**  Window `[0, 2 days)`, chosen instant day 1 at 14:00,
now = 0: both reminders scheduled. -/
theorem aoo_hour_accept_spec_witness :
    ("14" : String) ≠ "none" ∧
    ((0 : Int) ≤ 86400000 + 14 * 3600000 ∧
      (86400000 : Int) + 14 * 3600000 < 172800000) ∧
    ∃ cnt content,
      (aooHourInteraction "@e" 0
        ⟨some 0, some 172800000, some 86400000, some "14", some 14,
          "g", "c", "u"⟩ "r1" "r2" []).1 = HourReply.accepted cnt content ∧
      cnt = ((aooHourInteraction "@e" 0
        ⟨some 0, some 172800000, some 86400000, some "14", some 14,
          "g", "c", "u"⟩ "r1" "r2" []).2.filter fun x => !x.sent &&
          decide (x.groupKey = some (aooGroupKey "g" "c" "u"))).length ∧
      cnt ≤ 2 ∧
      (cnt = 0 ↔ ((86400000 : Int) + 14 * 3600000 - 30 * 60000 ≤ 0 ∧
        (86400000 : Int) + 14 * 3600000 - 10 * 60000 ≤ 0)) ∧
      (cnt = 0 → content = "✅ AOO start selected: **" ++
        formatUTC (86400000 + 14 * 3600000) ++ "**\n" ++
        "Both reminder times are already in the past, so nothing was scheduled.") ∧
      (∀ j ∈ (aooHourInteraction "@e" 0
          ⟨some 0, some 172800000, some 86400000, some "14", some 14,
            "g", "c", "u"⟩ "r1" "r2" []).2,
        (!j.sent && decide (j.groupKey = some (aooGroupKey "g" "c" "u")))
          = true →
        (0 : Int) < j.runAtMs ∧
          (j.runAtMs = 86400000 + 14 * 3600000 - 30 * 60000 ∨
           j.runAtMs = 86400000 + 14 * 3600000 - 10 * 60000)) ∧
      ((0 : Int) < 86400000 + 14 * 3600000 - 30 * 60000 →
        ∃ j ∈ (aooHourInteraction "@e" 0
            ⟨some 0, some 172800000, some 86400000, some "14", some 14,
              "g", "c", "u"⟩ "r1" "r2" []).2,
          j.sent = false ∧ j.groupKey = some (aooGroupKey "g" "c" "u") ∧
            j.runAtMs = 86400000 + 14 * 3600000 - 30 * 60000) ∧
      ((0 : Int) < 86400000 + 14 * 3600000 - 10 * 60000 →
        ∃ j ∈ (aooHourInteraction "@e" 0
            ⟨some 0, some 172800000, some 86400000, some "14", some 14,
              "g", "c", "u"⟩ "r1" "r2" []).2,
          j.sent = false ∧ j.groupKey = some (aooGroupKey "g" "c" "u") ∧
            j.runAtMs = 86400000 + 14 * 3600000 - 10 * 60000) :=
  ⟨by decide, ⟨by decide, by decide⟩,
   aoo_hour_accept_spec "@e" 0 86400000 14 0 172800000 "14" "g" "c" "u"
     "r1" "r2" [] (by decide) ⟨by decide, by decide⟩⟩

/-- **C4, witness.**  One eligible open milestone, the send fails. -/
theorem send_failure_aborts_and_retries_witness :
    (runCheck ⟨none, none, none⟩ "@e" (fun _ => false) 0
        [⟨"u", "d", 0, 100, some "ark_registration"⟩] []).ok = false ∧
    (runCheck ⟨none, none, none⟩ "@e" allOk 0
        [⟨"u", "d", 0, 100, some "ark_registration"⟩] []).sent.take
        (runCheck ⟨none, none, none⟩ "@e" (fun _ => false) 0
          [⟨"u", "d", 0, 100, some "ark_registration"⟩] []).sent.length =
      (runCheck ⟨none, none, none⟩ "@e" (fun _ => false) 0
        [⟨"u", "d", 0, 100, some "ark_registration"⟩] []).sent :=
  ⟨by decide,
   (send_failure_aborts_and_retries ⟨none, none, none⟩ "@e" (fun _ => false) 0
     [⟨"u", "d", 0, 100, some "ark_registration"⟩] [] (by decide)).1⟩

end LittleQueen
